import Mathlib

/-!
# Verification of the `crunch` texture-packer driver

A shallow embedding of the repository's sources:

* `src/crunch/main.cpp`   — the pipeline driver `crunch_main`
* `src/unnamed/part_000`  — `hash.cpp` (HashCombine / HashString / HashFile /
                            HashFiles / LoadHash / SaveHash)

Machine integers (`size_t`) are modelled as `Nat` with explicit `% 2^64`.
The C++ standard-library string hash `std::hash<std::string>` is an
implementation-defined function of the byte string it is applied to; it is
modelled as an explicit parameter `H : List Nat → Nat`.  Components of the
repository that are not present under `src/` (the PNG codec, `Bitmap`
construction in `bitmap.cpp`, `Packer::Pack` in `packer.cpp`, the per-image
serializers) are modelled as explicit function parameters, or — where a claim
is decided by them — as definitions modelled from the specification and
marked as such.
-/

namespace Crunch

/-- `2^64`, the modulus of `size_t` arithmetic (64-bit host assumed,
as the spec's "64-bit rolling hash" does). -/
def U64 : Nat := 18446744073709551616

/-- `hash.cpp` `HashCombine`:
`hash ^= hasher(v) + 0x9e3779b9 + (hash<<6) + (hash>>2);`
with all arithmetic in `size_t` (mod `2^64`).  `H` stands for
`std::hash<std::string>` applied to the byte string `v`. -/
def hashCombine (H : List Nat → Nat) (h : Nat) (v : List Nat) : Nat :=
  h ^^^ ((H v % U64 + 0x9e3779b9 + (h <<< 6) % U64 + h >>> 2) % U64)

/-- The bytes of a C++ `std::string` holding the characters of `s`. -/
def strBytes (s : String) : List Nat :=
  s.data.map Char.toNat

/-- `hash.cpp` `HashString`: combine the string itself. -/
def hashString (H : List Nat → Nat) (h : Nat) (s : String) : Nat :=
  hashCombine H h (strBytes s)

/-- `hash.cpp` `HashFile`: the file's bytes are read into a buffer of size
`length + 1` whose last byte is set to `'\0'`, and the *whole* buffer
(including that trailing NUL) is hashed as a string. -/
def hashFile (H : List Nat → Nat) (h : Nat) (bytes : List Nat) : Nat :=
  hashCombine H h (bytes ++ [0])

/-- One entry produced by `fs::recursive_directory_iterator`: its full path,
whether it is a regular file, and (when regular) its byte contents. -/
structure DirFile where
  path : String
  isRegular : Bool
  bytes : List Nat
deriving DecidableEq

/-- What a CLI input token resolves to on the filesystem:
a directory (with its recursive traversal, in the host's iteration order),
a regular file with the given byte contents, or nothing. -/
inductive InputEntry where
  | dir (files : List DirFile)
  | file (bytes : List Nat)
  | missing
deriving DecidableEq

/-- Split a C++ `fs::path`'s string at the final `/`:
`some (before, after)` when a `/` occurs, `none` otherwise. -/
def breakLast (c : Char) : List Char → Option (List Char × List Char)
  | [] => none
  | a :: rest =>
    match breakLast c rest with
    | some (pre, post) => some (a :: pre, post)
    | none => if a = c then some ([], rest) else none

/-- `fs::path::parent_path` (generic format, relative paths). -/
def parentPath (s : String) : String :=
  match breakLast '/' s.data with
  | some (pre, _) => ⟨pre⟩
  | none => ""

/-- `fs::path::filename`. -/
def fileName (s : String) : String :=
  match breakLast '/' s.data with
  | some (_, post) => ⟨post⟩
  | none => s

/-- `fs::path::stem` of a filename: strip the extension, where an extension
starts at the last dot unless that dot is the leading character. -/
def stem (f : String) : String :=
  match breakLast '.' f.data with
  | some (pre, _) => if pre = [] then f else ⟨pre⟩
  | none => f

/-- `fs::path::extension` of a path: the final-dot suffix of the filename
(empty for dotless names and for a leading dot). -/
def extOf (p : String) : String :=
  match breakLast '.' (fileName p).data with
  | some (pre, post) => if pre = [] then "" else ⟨'.' :: post⟩
  | none => ""

/-- `fs::path::operator/` on generic strings (empty left operand yields the
right operand). -/
def joinPath (a b : String) : String :=
  if a = "" then b else a ++ "/" ++ b

/-- `std::string::find`: index of the first occurrence of `needle`. -/
def findSub (hay needle : List Char) : Option Nat :=
  (List.range (hay.length + 1)).find? (fun i => needle.isPrefixOf (hay.drop i))

/-- `std::string::erase(pos, len)`. -/
def eraseSub (s : String) (pos len : Nat) : String :=
  ⟨s.data.take pos ++ s.data.drop (pos + len)⟩

/-- `main.cpp` `LoadBitmap` lines 100–102: the relative name of a loaded
bitmap: `parent/stem` of the path, with `directory.string().length()`
characters erased at the position where `directory` occurs in the *path*
string. -/
def relName (dir path : String) : String :=
  let base := joinPath (parentPath path) (stem (fileName path))
  match findSub path.data dir.data with
  | some pos => eraseSub base pos dir.data.length
  | none => base

/-- The `getline(ss, inputStr, ',')` loop of `crunch_main` lines 191–198:
split at every `','`; a trailing comma yields a final empty token, and the
empty string yields one empty token. -/
def splitCommaAux : List Char → List Char → List String
  | [], acc => [⟨acc⟩]
  | c :: rest, acc =>
    if c = ',' then ⟨acc⟩ :: splitCommaAux rest []
    else splitCommaAux rest (acc ++ [c])

/-- The input tokens of `argv[2]`. -/
def splitComma (s : String) : List String :=
  splitCommaAux s.data []

/-- `hash.cpp` `HashFiles(hash, root)`: for a directory, hash every regular
file with extension `.png` in traversal order; for a non-directory, hash it
only when it is a regular file with extension `.png`. -/
def hashFilesFn (H : List Nat → Nat) (h : Nat) (root : String) (e : InputEntry) : Nat :=
  match e with
  | .dir files =>
    files.foldl (fun h f =>
      if f.isRegular && (extOf f.path == ".png") then hashFile H h f.bytes else h) h
  | .file bytes => if extOf root == ".png" then hashFile H h bytes else h
  | .missing => h

/-- `crunch_main` lines 253–263: for each input, a directory goes through
`HashFiles` and a regular file goes straight to `HashFile`
(no extension check on that branch). -/
def hashMainInputs (H : List Nat → Nat) (inputs : List (String × InputEntry)) (h : Nat) : Nat :=
  inputs.foldl (fun h te =>
    match te.2 with
    | .dir _ => hashFilesFn H h te.1 te.2
    | .file bytes => hashFile H h bytes
    | .missing => h) h

/-- `crunch_main` lines 250–252: fold `HashString` over `argv[1..argc)`. -/
def hashArgs (H : List Nat → Nat) (args : List String) : Nat :=
  args.foldl (hashString H) 0

/-- The fingerprint `newHash` computed by `crunch_main` lines 249–263:
the argument tokens `argv[1..argc)` first, then the inputs. -/
def codeFingerprint (H : List Nat → Nat) (args : List String)
    (inputs : List (String × InputEntry)) : Nat :=
  hashMainInputs H inputs (hashArgs H args)

/-! ## `LoadHash` (`hash.cpp` lines 104–115)

`LoadHash` opens the file; when the open succeeds it extracts a `size_t`
with `ss >> hash` and returns `true` unconditionally.  Stream extraction of
an unsigned integer (C++11 `num_get`/`strtoull` semantics): skip whitespace,
accept an optional sign, take the longest digit prefix; no digits → the
extraction fails and the target is set to `0`; overflow → the target is set
to the maximum; a minus sign negates modulo `2^64`. -/

/-- Default-locale `isspace`. -/
def wsChar (c : Char) : Bool :=
  (c = ' ') || (c = '\t') || (c = '\n') || (c = '\x0b') || (c = '\x0c') || (c = '\r')

/-- Drop one leading sign character. -/
def afterSign : List Char → List Char
  | '-' :: r => r
  | '+' :: r => r
  | l => l

/-- Is the leading character a minus sign? -/
def negSign : List Char → Bool
  | '-' :: _ => true
  | _ => false

/-- Value of a decimal digit string. -/
def digitsVal (l : List Char) : Nat :=
  l.foldl (fun a c => 10 * a + (c.toNat - 48)) 0

/-- `strtoull`-style conversion of the digit prefix, given the sign. -/
def extractCore (l : List Char) (neg : Bool) : Nat :=
  let ds := l.takeWhile Char.isDigit
  if ds.isEmpty then 0
  else
    let v := digitsVal ds
    if v ≥ U64 then U64 - 1
    else if neg then (U64 - v) % U64
    else v

/-- `ss >> hash` on a stream holding `s`, for `hash : size_t`. -/
def extractU64 (s : String) : Nat :=
  let t := s.data.dropWhile wsChar
  extractCore (afterSign t) (negSign t)

/-- The extraction failed: no digit follows the optional whitespace/sign
(in that case C++11 stores `0` in the target). -/
def extractFailed (s : String) : Bool :=
  ((afterSign (s.data.dropWhile wsChar)).takeWhile Char.isDigit).isEmpty

/-- `hash.cpp` `LoadHash`: `content` is the text of the file when it can be
opened for reading, `none` otherwise.  Returns (returned Bool, value stored
in `hash`); when the open fails the output variable is untouched (modelled
as `0`, never read by the caller on that branch). -/
def loadHash (content : Option String) : Bool × Nat :=
  match content with
  | none => (false, 0)
  | some s => (true, extractU64 s)

/-! ## Options and argument parsing (`main.cpp` lines 81–93, 140–169, 200–247) -/

/-- A bitmap as far as the driver observes it: `bitmap.cpp` is not part of
the sources, so decoded pixels are abstract; the driver uses only the name
(for the packing-failure message) and width/height (for the area sort). -/
structure Bitmap where
  name : String
  width : Nat
  height : Nat
deriving DecidableEq

/-- The module-level mutable state of `main.cpp` lines 81–93: the option
globals, plus the `bitmaps` and `packers` vectors (a packed page is the
`Packer::bitmaps` list of bitmaps it placed). -/
structure Globals where
  optSize : Nat
  optPadding : Nat
  optXml : Bool
  optBinary : Bool
  optJson : Bool
  optPremultiply : Bool
  optTrim : Bool
  optVerbose : Bool
  optForce : Bool
  optUnique : Bool
  optRotate : Bool
  bitmaps : List Bitmap
  packers : List (List Bitmap)
deriving DecidableEq

/-- `crunch_main` lines 200–210: the option-reset block.  Note that
`optRotate` is *not* in it, and the `bitmaps`/`packers` vectors are never
cleared. -/
def initOptions (g : Globals) : Globals :=
  { g with
    optSize := 4096, optPadding := 1,
    optXml := false, optBinary := false, optJson := false,
    optPremultiply := false, optTrim := false, optVerbose := false,
    optForce := false, optUnique := false }

/-- `main.cpp` `GetPackSize` (lines 140–159); `none` models
`exit(EXIT_FAILURE)`. -/
def getPackSize (s : String) : Option Nat :=
  if s = "4096" then some 4096
  else if s = "2048" then some 2048
  else if s = "1024" then some 1024
  else if s = "512" then some 512
  else if s = "256" then some 256
  else if s = "128" then some 128
  else if s = "64" then some 64
  else none

/-- `main.cpp` `GetPadding` (lines 161–169): compare the string against
`to_string(i)` for `i = 0, …, 16`; `none` models `exit(EXIT_FAILURE)`. -/
def getPadding (s : String) : Option Nat :=
  (List.range 17).find? (fun i => s == toString i)

/-- One iteration of the option loop, `crunch_main` lines 211–246.  The
sequential `if`/`else if` chain (exact matches first, then the
`find(...) == 0` prefix tests `--size`, `-s`, `--pad`, `-p`, which are
mutually exclusive with the exact matches and with each other) is rendered
as a match on the token's characters. -/
def parseArg (g : Globals) (arg : String) : Except Unit Globals :=
  match arg.data with
  | ['-', 'd'] =>
    .ok { g with optXml := true, optPremultiply := true, optTrim := true, optUnique := true }
  | ['-', '-', 'd', 'e', 'f', 'a', 'u', 'l', 't'] =>
    .ok { g with optXml := true, optPremultiply := true, optTrim := true, optUnique := true }
  | ['-', 'x'] => .ok { g with optXml := true }
  | ['-', '-', 'x', 'm', 'l'] => .ok { g with optXml := true }
  | ['-', 'b'] => .ok { g with optBinary := true }
  | ['-', '-', 'b', 'i', 'n', 'a', 'r', 'y'] => .ok { g with optBinary := true }
  | ['-', 'j'] => .ok { g with optJson := true }
  | ['-', '-', 'j', 's', 'o', 'n'] => .ok { g with optJson := true }
  | ['-', 'p'] => .ok { g with optPremultiply := true }
  | ['-', '-', 'p', 'r', 'e', 'm', 'u', 'l', 't', 'i', 'p', 'l', 'y'] =>
    .ok { g with optPremultiply := true }
  | ['-', 't'] => .ok { g with optTrim := true }
  | ['-', '-', 't', 'r', 'i', 'm'] => .ok { g with optTrim := true }
  | ['-', 'v'] => .ok { g with optVerbose := true }
  | ['-', '-', 'v', 'e', 'r', 'b', 'o', 's', 'e'] => .ok { g with optVerbose := true }
  | ['-', 'f'] => .ok { g with optForce := true }
  | ['-', '-', 'f', 'o', 'r', 'c', 'e'] => .ok { g with optForce := true }
  | ['-', 'u'] => .ok { g with optUnique := true }
  | ['-', '-', 'u', 'n', 'i', 'q', 'u', 'e'] => .ok { g with optUnique := true }
  | ['-', 'r'] => .ok { g with optRotate := true }
  | ['-', '-', 'r', 'o', 't', 'a', 't', 'e'] => .ok { g with optRotate := true }
  | '-' :: '-' :: 's' :: 'i' :: 'z' :: 'e' :: rest =>
    match getPackSize ⟨rest⟩ with
    | some n => .ok { g with optSize := n }
    | none => .error ()
  | '-' :: 's' :: rest =>
    match getPackSize ⟨rest⟩ with
    | some n => .ok { g with optSize := n }
    | none => .error ()
  | '-' :: '-' :: 'p' :: 'a' :: 'd' :: rest =>
    match getPadding ⟨rest⟩ with
    | some n => .ok { g with optPadding := n }
    | none => .error ()
  | '-' :: 'p' :: rest =>
    match getPadding ⟨rest⟩ with
    | some n => .ok { g with optPadding := n }
    | none => .error ()
  | _ => .error ()

/-- The whole option loop: fold `parseArg` until the first failing token,
keeping the (partially updated) globals; the Bool is `true` when every
token parsed. -/
def parseArgsAcc (g : Globals) : List String → Globals × Bool
  | [] => (g, true)
  | a :: rest =>
    match parseArg g a with
    | .ok g' => parseArgsAcc g' rest
    | .error _ => (g, false)

/-! ## Loading and sorting bitmaps (`main.cpp` lines 95–133, 313–327) -/

/-- `Bitmap::Bitmap(path, relName, premultiply, trim)` lives in
`bitmap.cpp`, which is not among the sources; the constructor is an
abstract parameter. -/
def MkBitmap : Type := String → String → Bool → Bool → Bitmap

/-- `main.cpp` `LoadBitmaps(root)` (lines 111–133): for a directory load
every regular `.png` file in traversal order; for a non-directory load it
only when it is a regular `.png` file.  `LoadBitmap(root, path)` pushes
`new Bitmap(path, relName root path, optPremultiply, optTrim)`. -/
def loadBitmapsFn (mkB : MkBitmap) (pm tr : Bool) (root : String) (e : InputEntry) : List Bitmap :=
  match e with
  | .dir files =>
    (files.filter (fun f => f.isRegular && (extOf f.path == ".png"))).map
      (fun f => mkB f.path (relName root f.path) pm tr)
  | .file _ => if extOf root == ".png" then [mkB root (relName root root) pm tr] else []
  | .missing => []

/-- `crunch_main` lines 316–322: `LoadBitmaps` is invoked **only** for
inputs that are directories; any other input loads nothing. -/
def loadInputs (mkB : MkBitmap) (pm tr : Bool) (inputs : List (String × InputEntry)) : List Bitmap :=
  inputs.foldl (fun acc te =>
    match te.2 with
    | .dir _ => acc ++ loadBitmapsFn mkB pm tr te.1 te.2
    | _ => acc) []

/-- Bitmap area, the sort key of `crunch_main` lines 324–327. -/
def area (b : Bitmap) : Nat := b.width * b.height

/-- `sort(bitmaps.begin(), bitmaps.end(), [](a, b){ return a->w*a->h < b->w*b->h; })`:
a permutation in non-decreasing order of area (`std::sort` is unstable and
its output order otherwise unspecified; we model it with insertion sort,
one order satisfying the comparator's contract). -/
def sortBitmaps (l : List Bitmap) : List Bitmap :=
  List.insertionSort (fun a b => area a ≤ area b) l

/-! ## The packing loop (`main.cpp` lines 330–345) -/

/-- `Packer::Pack` lives in `packer.cpp`, which is not among the sources.
`pack w h padding unique rotate bs` returns the pair
(`packer->bitmaps` — the bitmaps the new packer placed,
the module-level `bitmaps` vector after the call — the bitmaps left over). -/
def PackFn : Type := Nat → Nat → Nat → Bool → Bool → List Bitmap → List Bitmap × List Bitmap

/-- Result of the `while (!bitmaps.empty())` loop: the final `packers`
vector, plus (on failure) the leftover `bitmaps` vector.  `spun` is the
fuel-exhaustion marker of the embedding (the C++ loop would not have
terminated on such a `Pack`). -/
inductive LoopRes where
  | done (pages : List (List Bitmap))
  | failed (pages : List (List Bitmap)) (rem : List Bitmap)
  | spun (pages : List (List Bitmap)) (rem : List Bitmap)
deriving DecidableEq

/-- `crunch_main` lines 330–345: each round constructs a
`Packer(optSize, optSize, optPadding)`, packs, pushes the packer, and fails
when the new packer placed nothing. -/
def packLoop (pack : PackFn) (size pad : Nat) (uni rot : Bool) :
    Nat → List Bitmap → List (List Bitmap) → LoopRes
  | _, [], acc => .done acc
  | 0, b :: bs, acc => .spun acc (b :: bs)
  | fuel + 1, b :: bs, acc =>
    match pack size size pad uni rot (b :: bs) with
    | (placed, rem) =>
      if placed.isEmpty then .failed (acc ++ [placed]) rem
      else packLoop pack size pad uni rot fuel rem (acc ++ [placed])

/-! ## Output files, manifests, and effects (`main.cpp` lines 305–311, 347–404) -/

/-- The output files of a run, distinguished by their name suffix after the
common prefix `outputName`. -/
inductive OutName where
  | hashF
  | binF
  | xmlF
  | jsonF
  | page (i : Nat)
deriving DecidableEq

/-- One image record of a manifest (§6.2–§6.4 of the spec: name, x, y, w, h,
an optional frame quadruple when `--trim`, an optional rotated flag when
`--rotate`). -/
structure ImgEntry where
  n : String
  x : Int
  y : Int
  w : Int
  h : Int
  frame : Option (Int × Int × Int × Int)
  rotated : Option Nat
deriving DecidableEq

/-- Modelled from the spec: the per-image records that
`Packer::SaveBin/SaveXml/SaveJson` (in `packer.cpp`, not among the sources)
emit for one packed page; per §6.2–§6.4 all three formats serialize the
same fields, so a single abstract function stands for all of them. -/
def ImagesOf : Type := List Bitmap → Bool → Bool → List ImgEntry

/-- One page's manifest block: the page name passed by `crunch_main` to the
serializer, and the image records. -/
structure PageManifest where
  pageName : String
  images : List ImgEntry
deriving DecidableEq

/-- The per-page serializer loop (`main.cpp` lines 363–364, 376–377,
390–397): page `i` is written under the name `pre + to_string(i)`. -/
def pageManifests (io : ImagesOf) (pre : String) (trim rot : Bool) :
    Nat → List (List Bitmap) → List PageManifest
  | _, [] => []
  | i, p :: ps => ⟨pre ++ toString i, io p trim rot⟩ :: pageManifests io pre trim rot (i + 1) ps

/-- `(int16_t)packers.size()` (`main.cpp` line 362). -/
def toInt16 (n : Nat) : Int :=
  ((n : Int) + 2 ^ 15) % 2 ^ 16 - 2 ^ 15

/-- Contents written to an output file. -/
inductive FileContent where
  | png (pg : List Bitmap)
  | hashText (v : Nat)
  | binC (count : Int) (ms : List PageManifest)
  | xmlC (ms : List PageManifest)
  | jsonC (ms : List PageManifest)
deriving DecidableEq

/-- A filesystem effect of the run. -/
inductive FsOp where
  | remove (f : OutName)
  | write (f : OutName) (c : FileContent)
deriving DecidableEq

/-- `crunch_main` lines 305–311: the pre-run cleanup removes the hash, bin,
xml and json files and the page files of index `0 ≤ i < 16` — sixteen of
them, regardless of how many pages the previous run wrote. -/
def removeEffects : List FsOp :=
  [.remove .hashF, .remove .binF, .remove .xmlF, .remove .jsonF] ++
    (List.range 16).map (fun i => FsOp.remove (.page i))

/-- `crunch_main` lines 347–353: one PNG per packer, no upper bound. -/
def pageWrites : Nat → List (List Bitmap) → List FsOp
  | _, [] => []
  | i, p :: ps => FsOp.write (.page i) (.png p) :: pageWrites (i + 1) ps

/-- `crunch_main` lines 347–404: the writes of a completed run — the page
PNGs, then the bin / xml / json manifests when enabled (bin and xml are
handed `relativePath + i` as the page name, json is handed `name + i`),
then the new hash. -/
def writeEffects (io : ImagesOf) (rel nm : String) (xml bin json trim rot : Bool)
    (pages : List (List Bitmap)) (newHash : Nat) : List FsOp :=
  pageWrites 0 pages ++
    (if bin then
      [FsOp.write .binF (.binC (toInt16 pages.length) (pageManifests io rel trim rot 0 pages))]
     else []) ++
    (if xml then [FsOp.write .xmlF (.xmlC (pageManifests io rel trim rot 0 pages))] else []) ++
    (if json then [FsOp.write .jsonF (.jsonC (pageManifests io nm trim rot 0 pages))] else []) ++
    [FsOp.write .hashF (.hashText newHash)]

/-! ## The driver `crunch_main` (`main.cpp` lines 171–407) -/

/-- The process environment of one call: the string hash, the out-of-source
`Bitmap` constructor and `Packer::Pack`, the out-of-source per-image
serializer, the filesystem resolution of input tokens, and the content of
`<output>.hash` (`none` when it cannot be opened). -/
structure Env where
  H : List Nat → Nat
  mkB : MkBitmap
  pack : PackFn
  io : ImagesOf
  fs : String → InputEntry
  hashContent : Option String

/-- The observable outcome of one `crunch_main` call: the exit code, the
bitmap name in the `"packing failed, could not fit bitmap"` message (when
printed), the filesystem effects, the module-level state it leaves behind,
and the fuel-exhaustion marker of the embedding. -/
structure RunOut where
  exit : Nat
  errName : Option String
  effects : List FsOp
  g : Globals
  spun : Bool
deriving DecidableEq

/-- The input tokens of `argv[2]`, each paired with what it resolves to. -/
def resolveInputs (fs : String → InputEntry) (inTok : String) : List (String × InputEntry) :=
  (splitComma inTok).map (fun t => (t, fs t))

/-- `crunch_main`.  `g0` is the module-level state left by previous calls in
the same process (all fields zero-initialized at process start). -/
def crunchMain (e : Env) (fuel : Nat) (g0 : Globals) (argv : List String) : RunOut :=
  match argv with
  | _prog :: out :: inTok :: opts =>
    -- lines 184–188
    let relativePath := parentPath out
    let nm := stem (fileName out)
    -- lines 190–198
    let inputs := resolveInputs e.fs inTok
    -- lines 200–247
    match parseArgsAcc (initOptions g0) opts with
    | (g1, false) => ⟨1, none, [], g1, false⟩
    | (g1, true) =>
      -- lines 249–263
      let newHash := codeFingerprint e.H (out :: inTok :: opts) inputs
      -- lines 265–274
      let old := loadHash e.hashContent
      if old.1 && !g1.optForce && (newHash == old.2) then ⟨0, none, [], g1, false⟩
      else
        -- lines 313–327
        let bs := sortBitmaps (g1.bitmaps ++ loadInputs e.mkB g1.optPremultiply g1.optTrim inputs)
        -- lines 330–345
        match packLoop e.pack g1.optSize g1.optPadding g1.optUnique g1.optRotate fuel bs g1.packers with
        | .failed pages rem =>
          ⟨1, (rem.getLast?).map Bitmap.name, removeEffects,
            { g1 with bitmaps := rem, packers := pages }, false⟩
        | .spun pages rem =>
          ⟨1, none, removeEffects, { g1 with bitmaps := rem, packers := pages }, true⟩
        | .done pages =>
          -- lines 347–404
          ⟨0, none,
            removeEffects ++
              writeEffects e.io relativePath nm g1.optXml g1.optBinary g1.optJson
                g1.optTrim g1.optRotate pages newHash,
            { g1 with bitmaps := [], packers := pages }, false⟩
  | _ => ⟨1, none, [], g0, false⟩

/-! ## A small disk semantics, for the frame-effect claims -/

/-- Apply one effect to a disk (a map from output file to content). -/
def applyOp (d : OutName → Option FileContent) : FsOp → OutName → Option FileContent
  | .remove f => fun x => if x = f then none else d x
  | .write f c => fun x => if x = f then some c else d x

/-- Apply a list of effects in order. -/
def applyOps (d : OutName → Option FileContent) (ops : List FsOp) : OutName → Option FileContent :=
  ops.foldl applyOp d

/-! ## The spec's reading of the fingerprint (for the refinement claim C1)

These two definitions follow the specification's words, §4.E: contributors
are "every CLI argument token (string form); then, for each input path,
every `.png` file's entire byte contents", each folded in with the
`HashCombine` formula starting from `0`. -/

/-- Spec-side: the `.png` byte contents contributed by the inputs. -/
def claimPngContributors (inputs : List (String × InputEntry)) : List (List Nat) :=
  inputs.flatMap (fun te =>
    match te.2 with
    | .dir files =>
      (files.filter (fun f => f.isRegular && (extOf f.path == ".png"))).map DirFile.bytes
    | .file bytes => if extOf te.1 == ".png" then [bytes] else []
    | .missing => [])

/-- Spec-side: the fingerprint as §4.E states it. -/
def claimFingerprint (H : List Nat → Nat) (args : List String)
    (inputs : List (String × InputEntry)) : Nat :=
  ((args.map strBytes) ++ claimPngContributors inputs).foldl (hashCombine H) 0

/-- Code-side: the contributor list `crunch_main` actually folds over —
file contributors carry the trailing `'\0'` of `HashFile`'s buffer, and a
regular-file input contributes whatever its extension. -/
def codeContributors : List (String × InputEntry) → List (List Nat)
  | [] => []
  | (_, e) :: rest =>
    (match e with
     | .dir files =>
       (files.filter (fun f => f.isRegular && (extOf f.path == ".png"))).map
         (fun f => f.bytes ++ [0])
     | .file bytes => [bytes ++ [0]]
     | .missing => []) ++ codeContributors rest

/-! ## Theorems -/

/-- The `HashFiles` directory fold is the `hashCombine` fold over the
NUL-terminated contents of the regular `.png` entries. -/
theorem hashFilesDir_eq (H : List Nat → Nat) (files : List DirFile) (h : Nat) :
    files.foldl (fun h f =>
        if f.isRegular && (extOf f.path == ".png") then hashFile H h f.bytes else h) h
      = ((files.filter (fun f => f.isRegular && (extOf f.path == ".png"))).map
          (fun f => f.bytes ++ [0])).foldl (hashCombine H) h := by
  induction files generalizing h with
  | nil => rfl
  | cons f fs ih =>
    simp only [List.foldl_cons]
    by_cases hf : (f.isRegular && (extOf f.path == ".png")) = true
    · rw [if_pos hf,
        @List.filter_cons_of_pos _ (fun f => f.isRegular && (extOf f.path == ".png")) f fs hf,
        List.map_cons, List.foldl_cons, ih]
      rfl
    · rw [if_neg hf,
        @List.filter_cons_of_neg _ (fun f => f.isRegular && (extOf f.path == ".png")) f fs hf,
        ih]

/-- The input-hashing loop of `crunch_main` is the `hashCombine` fold over
`codeContributors`. -/
theorem hashMainInputs_eq (H : List Nat → Nat) (inputs : List (String × InputEntry)) (h : Nat) :
    hashMainInputs H inputs h = (codeContributors inputs).foldl (hashCombine H) h := by
  induction inputs generalizing h with
  | nil => rfl
  | cons te rest ih =>
    obtain ⟨t, e⟩ := te
    cases e with
    | dir files =>
      have step : hashMainInputs H ((t, InputEntry.dir files) :: rest) h
          = hashMainInputs H rest (hashFilesFn H h t (InputEntry.dir files)) := rfl
      rw [step, ih]
      simp only [codeContributors, List.foldl_append]
      congr 1
      exact hashFilesDir_eq H files h
    | file bytes =>
      have step : hashMainInputs H ((t, InputEntry.file bytes) :: rest) h
          = hashMainInputs H rest (hashFile H h bytes) := rfl
      rw [step, ih]
      simp only [codeContributors, List.foldl_append, List.foldl_cons, List.foldl_nil]
      rfl
    | missing =>
      have step : hashMainInputs H ((t, InputEntry.missing) :: rest) h
          = hashMainInputs H rest h := rfl
      rw [step, ih]
      simp only [codeContributors, List.nil_append]

/-- C1, counterexample: with the (implementation-defined) string hash
instantiated to the byte-string length, the fingerprint `crunch_main`
computes for the single regular-file input `a.txt` differs from the
spec's fold (the code hashes the non-`.png` file — and appends a NUL to
every file contributor — while §4.E's contributor list has neither). -/
theorem C1_fingerprint_counterexample :
    codeFingerprint (fun l => l.length) ["out", "a.txt"] [("a.txt", InputEntry.file [7])]
      ≠ claimFingerprint (fun l => l.length) ["out", "a.txt"] [("a.txt", InputEntry.file [7])] := by
  decide

/-- C1 (amended): the fingerprint is the 64-bit rolling fold
`h ← h XOR (H(v) + 0x9E3779B9 + (h << 6) + (h >> 2))` starting from 0,
whose contributors, in order, are every CLI argument token after the
program name, and then, for each input path: every regular `.png` file's
byte contents (NUL-terminated) when the input is a directory, and the
file's own byte contents (NUL-terminated, regardless of extension) when
the input is a regular file. -/
theorem C1_fingerprint_amended (H : List Nat → Nat) (args : List String)
    (inputs : List (String × InputEntry)) :
    codeFingerprint H args inputs
      = ((args.map strBytes) ++ codeContributors inputs).foldl (hashCombine H) 0 := by
  unfold codeFingerprint hashArgs
  rw [List.foldl_append, hashMainInputs_eq]
  congr 1
  rw [List.foldl_map]
  rfl

/-- C7: the driver's pre-packing sort produces a permutation of the loaded
bitmaps in ascending (non-decreasing) order of area `width * height`. -/
theorem C7_sort_area_ascending (l : List Bitmap) :
    (sortBitmaps l).Perm l ∧ (sortBitmaps l).Pairwise (fun a b => area a ≤ area b) := by
  haveI : IsTotal Bitmap (fun a b => area a ≤ area b) := ⟨fun a b => Nat.le_total _ _⟩
  haveI : IsTrans Bitmap (fun a b => area a ≤ area b) := ⟨fun _ _ _ => Nat.le_trans⟩
  exact ⟨List.perm_insertionSort _ l, List.sorted_insertionSort _ l⟩

/-- C8: `LoadHash` returns `true` exactly when the file can be opened, and
when the open succeeds but the stream extraction finds no digit (after
optional whitespace and sign), C++11 stores `0`, so `LoadHash` reports
success with the value `0` — which the gate then compares against the new
fingerprint. -/
theorem C8_loadHash_semantics :
    (∀ c : Option String, (loadHash c).1 = c.isSome)
      ∧ (∀ s : String, extractFailed s = true → loadHash (some s) = (true, 0)) := by
  constructor
  · intro c
    cases c <;> rfl
  · intro s hs
    have h : ((afterSign (s.data.dropWhile wsChar)).takeWhile Char.isDigit).isEmpty = true := hs
    simp [loadHash, extractU64, extractCore, h]

/-- Witness for C8 at a concrete corrupt hash file. -/
theorem C8_loadHash_semantics_witness :
    loadHash (some "corrupt!") = (true, 0) :=
  C8_loadHash_semantics.2 "corrupt!" (by decide)

/-- The module-level state at process start: C++ zero-initializes the
static option globals, and the vectors start empty. -/
def zeroG : Globals :=
  ⟨0, 0, false, false, false, false, false, false, false, false, false, [], []⟩

/-- C6, counterexample: `"07"` is a digit string whose value `7` lies in
`[0, 16]`, yet `GetPadding` rejects it (it only compares against
`to_string(i)`, the canonical numerals), so the token `-p07` is fatal
instead of setting padding 7. -/
theorem C6_padding_counterexample :
    ("07".data.all Char.isDigit = true) ∧ (7 : Nat) ≤ 16
      ∧ getPadding "07" = none
      ∧ parseArg zeroG "-p07" = Except.error () :=
  ⟨rfl, by omega, rfl, rfl⟩

/-- C6 (amended): `-p` with no suffix enables premultiply; a token
`-p<suffix>` with a non-empty suffix sets padding exactly when the suffix
is the canonical decimal numeral (no leading zeros, no sign) of some
`n ≤ 16`, and any other suffix is fatal (exit 1). -/
theorem C6_padding_amended :
    (∀ (s : String) (n : Nat), getPadding s = some n ↔ (n ≤ 16 ∧ s = toString n))
      ∧ (∀ g : Globals, parseArg g "-p" = Except.ok { g with optPremultiply := true })
      ∧ (∀ (g : Globals) (c : Char) (rest : List Char),
          parseArg g ⟨'-' :: 'p' :: c :: rest⟩ =
            match getPadding ⟨c :: rest⟩ with
            | some n => Except.ok { g with optPadding := n }
            | none => Except.error ()) := by
  refine ⟨?_, fun g => rfl, fun g c rest => rfl⟩
  intro s n
  constructor
  · intro h
    have hmem := List.mem_of_find?_eq_some h
    have hp := List.find?_some h
    have hn : n < 17 := List.mem_range.mp hmem
    refine ⟨by omega, ?_⟩
    simpa using hp
  · rintro ⟨hn, rfl⟩
    interval_cases n <;> rfl

/-- C4: when `<output>.hash` can be opened, its extracted value equals the
newly computed fingerprint, and `--force` was not set, `crunch_main`
returns `EXIT_SUCCESS` having performed no filesystem effect at all (no
file is deleted or written: the cleanup and the save phases are never
reached). -/
theorem C4_gate_noop (e : Env) (g0 g1 : Globals) (prog out inTok : String)
    (opts : List String) (fuel : Nat) (s : String)
    (hparse : parseArgsAcc (initOptions g0) opts = (g1, true))
    (hcontent : e.hashContent = some s)
    (hforce : g1.optForce = false)
    (hmatch : extractU64 s = codeFingerprint e.H (out :: inTok :: opts) (resolveInputs e.fs inTok)) :
    crunchMain e fuel g0 (prog :: out :: inTok :: opts) = ⟨0, none, [], g1, false⟩ := by
  simp only [crunchMain]
  rw [hparse, hcontent]
  simp [loadHash, hforce, ← hmatch]

/-- A concrete environment for the C4 witness: no inputs resolve, and the
hash file holds the decimal text of exactly the fingerprint the run
computes. -/
def envC4 : Env :=
  ⟨fun l => l.length, fun _ _ _ _ => ⟨"x", 1, 1⟩, fun _ _ _ _ _ bs => (bs, []),
   fun _ _ _ => [], fun _ => InputEntry.missing,
   some (toString (codeFingerprint (fun l => l.length) ["out", "a"]
     [("a", InputEntry.missing)]))⟩

/-- Witness for C4 at a concrete no-op run. -/
theorem C4_gate_noop_witness :
    crunchMain envC4 3 zeroG ["crunch", "out", "a"] = ⟨0, none, [], initOptions zeroG, false⟩ :=
  C4_gate_noop envC4 zeroG (initOptions zeroG) "crunch" "out" "a" [] 3
    (toString (codeFingerprint (fun l => l.length) ["out", "a"] [("a", InputEntry.missing)]))
    rfl rfl rfl (by decide)

/-- The state of the `while (!bitmaps.empty())` loop after `n` rounds that
each placed something: `some (cur, acc)` holds the remaining `bitmaps`
vector and the `packers` vector on entry to round `n`; `none` means the
loop stopped earlier (finished, or a round placed nothing). -/
def packStep (pack : PackFn) (size pad : Nat) (uni rot : Bool) :
    Nat → List Bitmap × List (List Bitmap) → Option (List Bitmap × List (List Bitmap))
  | 0, st => some st
  | n + 1, (cur, acc) =>
    match cur with
    | [] => none
    | b :: bs =>
      match pack size size pad uni rot (b :: bs) with
      | (placed, rem) =>
        if placed.isEmpty then none
        else packStep pack size pad uni rot n (rem, acc ++ [placed])

/-- If round `n` of the loop (reached after `n` productive rounds) places
nothing, the whole loop fails, with the empty packer pushed and the
remaining vector as `Pack` left it. -/
theorem packLoop_failed_at_round (pack : PackFn) (size pad : Nat) (uni rot : Bool) :
    ∀ (n fuel : Nat) (bs cur : List Bitmap) (acc acc2 : List (List Bitmap)) (rem : List Bitmap),
    packStep pack size pad uni rot n (bs, acc) = some (cur, acc2) →
    cur ≠ [] →
    pack size size pad uni rot cur = ([], rem) →
    packLoop pack size pad uni rot (n + (fuel + 1)) bs acc = .failed (acc2 ++ [[]]) rem := by
  intro n
  induction n with
  | zero =>
    intro fuel bs cur acc acc2 rem hstep hne hpack
    simp only [packStep, Option.some.injEq, Prod.mk.injEq] at hstep
    obtain ⟨rfl, rfl⟩ := hstep
    obtain ⟨x, xs, rfl⟩ := List.exists_cons_of_ne_nil hne
    simp only [Nat.zero_add, packLoop]
    rw [hpack]
    simp
  | succ n ih =>
    intro fuel bs cur acc acc2 rem hstep hne hpack
    cases bs with
    | nil => simp [packStep] at hstep
    | cons b bs2 =>
      rw [show n + 1 + (fuel + 1) = (n + (fuel + 1)) + 1 by omega]
      simp only [packStep] at hstep
      rcases hq : pack size size pad uni rot (b :: bs2) with ⟨placed, rem0⟩
      rw [hq] at hstep
      by_cases hpl : placed.isEmpty = true
      · rw [if_pos hpl] at hstep
        cases hstep
      · rw [if_neg hpl] at hstep
        simp only [packLoop]
        rw [hq, if_neg hpl]
        exact ih fuel rem0 cur (acc ++ [placed]) acc2 rem hstep hne hpack

/-- C5: whenever any round of the packing loop places nothing
(`packer->bitmaps` comes back empty) — whether it is the first round or a
later one holding only the unfit bitmaps — `crunch_main` prints
`"packing failed, could not fit bitmap"` with the name of the last bitmap
of the remaining (area-sorted) vector, the unfit largest one, and returns
`EXIT_FAILURE`.  The gate hypothesis only requires that the run was not
stopped by the incremental gate (no hash file, a stale value, or
`--force`). -/
theorem C5_packing_failure (e : Env) (g0 g1 : Globals) (prog out inTok : String)
    (opts : List String) (n fuel : Nat) (bs cur rem : List Bitmap)
    (acc : List (List Bitmap)) (b : Bitmap)
    (hparse : parseArgsAcc (initOptions g0) opts = (g1, true))
    (hgate : ((loadHash e.hashContent).1 && !g1.optForce &&
      (codeFingerprint e.H (out :: inTok :: opts) (resolveInputs e.fs inTok)
        == (loadHash e.hashContent).2)) = false)
    (hbs : sortBitmaps (g1.bitmaps ++ loadInputs e.mkB g1.optPremultiply g1.optTrim
      (resolveInputs e.fs inTok)) = bs)
    (hsteps : packStep e.pack g1.optSize g1.optPadding g1.optUnique g1.optRotate n
      (bs, g1.packers) = some (cur, acc))
    (hne : cur ≠ [])
    (hpack : e.pack g1.optSize g1.optSize g1.optPadding g1.optUnique g1.optRotate cur = ([], rem))
    (hlast : rem.getLast? = some b) :
    crunchMain e (n + (fuel + 1)) g0 (prog :: out :: inTok :: opts) =
      ⟨1, some b.name, removeEffects,
        { g1 with bitmaps := rem, packers := acc ++ [[]] }, false⟩ := by
  obtain ⟨H, mkB, pack, io, fsv, hc⟩ := e
  simp only at hgate hbs hsteps hpack
  simp only [crunchMain]
  rw [hparse]
  simp only [hgate, Bool.false_eq_true, if_false]
  rw [hbs, packLoop_failed_at_round pack g1.optSize g1.optPadding g1.optUnique g1.optRotate
    n fuel bs cur g1.packers acc rem hsteps hne hpack]
  simp [hlast]

/-- A concrete environment for the C5 witness: one directory input holding
a small and an oversized bitmap, a `Pack` that places only bitmaps of
width at most 100, and a *stale* hash file (the gate is evaluated and
passed, not absent). -/
def envC5 : Env :=
  ⟨fun l => l.length,
   fun p _ _ _ => if p = "a/big.png" then ⟨"big", 9000, 9000⟩ else ⟨"small", 1, 1⟩,
   fun _ _ _ _ _ bs =>
     (bs.filter (fun b => b.width ≤ 100), bs.filter (fun b => 100 < b.width)),
   fun _ _ _ => [],
   fun t => if t = "a"
     then .dir [⟨"a/small.png", true, [1]⟩, ⟨"a/big.png", true, [2]⟩] else .missing,
   some "999"⟩

/-- Witness for C5 at a concrete run whose *second* round fails: round 0
places the small bitmap, round 1 is left with only the oversized one and
places nothing. -/
theorem C5_packing_failure_witness :
    crunchMain envC5 2 zeroG ["crunch", "out", "a"] =
      ⟨1, some "big", removeEffects,
        { initOptions zeroG with
            bitmaps := [⟨"big", 9000, 9000⟩],
            packers := [[⟨"small", 1, 1⟩], []] }, false⟩ :=
  C5_packing_failure envC5 zeroG (initOptions zeroG) "crunch" "out" "a" [] 1 0
    [⟨"small", 1, 1⟩, ⟨"big", 9000, 9000⟩] [⟨"big", 9000, 9000⟩] [⟨"big", 9000, 9000⟩]
    [[⟨"small", 1, 1⟩]] ⟨"big", 9000, 9000⟩
    rfl (by decide) (by decide) (by decide) (by decide) (by decide) rfl

/-- C2: evaluation at the failing input — an input token naming a regular
`.png` file.  The loading loop of `crunch_main` only ever calls
`LoadBitmaps` for directory inputs, so a single-file `.png` input loads no
bitmap at all, even though the same input *is* folded into the
fingerprint (second conjunct). -/
theorem C2_single_file_not_loaded (mkB : MkBitmap) (pm tr : Bool) (bytes : List Nat)
    (H : List Nat → Nat) (args : List String) :
    loadInputs mkB pm tr [("a.png", InputEntry.file bytes)] = []
      ∧ codeFingerprint H args [("a.png", InputEntry.file bytes)]
          = hashFile H (hashArgs H args) bytes :=
  ⟨rfl, rfl⟩

/-- A concrete environment for the C3 counterexample: one directory input
with one bitmap, everything packed onto one page. -/
def envC3 : Env :=
  ⟨fun l => l.length, fun _ r _ _ => ⟨r, 1, 1⟩, fun _ _ _ _ _ bs => (bs, []),
   fun _ _ _ => [], fun t => if t = "a" then .dir [⟨"a/x.png", true, [1]⟩] else .missing,
   none⟩

/-- C3, counterexample: a run with output prefix `bin/atlases/atlas` that
emits both BIN and JSON writes the page under the name `"bin/atlases0"`
(from `relativePath + i`) in the BIN manifest but `"atlas0"` (from
`name + i`) in the JSON manifest — the manifests of one run do **not**
agree on the page name. -/
theorem C3_manifest_parity_counterexample :
    FsOp.write .binF (.binC 1 [⟨"bin/atlases0", []⟩])
        ∈ (crunchMain envC3 2 zeroG ["crunch", "bin/atlases/atlas", "a", "-b", "-j"]).effects
      ∧ FsOp.write .jsonF (.jsonC [⟨"atlas0", []⟩])
        ∈ (crunchMain envC3 2 zeroG ["crunch", "bin/atlases/atlas", "a", "-b", "-j"]).effects
      ∧ ("bin/atlases0" : String) ≠ "atlas0" := by
  decide

/-- The images of the per-page manifests do not depend on the page-name
prefix. -/
theorem pageManifests_images (io : ImagesOf) (rel nm : String) (trim rot : Bool) :
    ∀ (i : Nat) (pages : List (List Bitmap)),
    (pageManifests io rel trim rot i pages).map PageManifest.images
      = (pageManifests io nm trim rot i pages).map PageManifest.images := by
  intro i pages
  induction pages generalizing i with
  | nil => rfl
  | cons p ps ih => simp [pageManifests, ih]

/-- The `k`-th per-page manifest carries the page name `pre + (i + k)`. -/
theorem pageManifests_getElem (io : ImagesOf) (pre : String) (trim rot : Bool) :
    ∀ (i k : Nat) (pages : List (List Bitmap)),
    (pageManifests io pre trim rot i pages)[k]?
      = (pages[k]?).map (fun p => ⟨pre ++ toString (i + k), io p trim rot⟩) := by
  intro i k pages
  induction pages generalizing i k with
  | nil => simp [pageManifests]
  | cons p ps ih =>
    cases k with
    | zero => simp [pageManifests]
    | succ k =>
      simp only [pageManifests, List.getElem?_cons_succ, ih]
      rw [show i + 1 + k = i + (k + 1) by omega]

/-- C3 (amended): the BIN and XML manifests of one run agree entirely
(`crunch_main` hands both the same `relativePath + i` page names and the
serializers emit the same per-image fields); the JSON manifest agrees on
every per-image field, but its page `k` is named `name + k` (output
filename stem) where BIN/XML name it `relativePath + k` (output parent
path), so the formats disagree on the page name whenever those prefixes
differ. -/
theorem C3_manifest_parity_amended (io : ImagesOf) (rel nm : String) (trim rot : Bool)
    (pages : List (List Bitmap)) (k : Nat) :
    (pageManifests io rel trim rot 0 pages).map PageManifest.images
        = (pageManifests io nm trim rot 0 pages).map PageManifest.images
      ∧ ((pageManifests io rel trim rot 0 pages)[k]?).map PageManifest.pageName
          = (pages[k]?).map (fun _ => rel ++ toString k)
      ∧ ((pageManifests io nm trim rot 0 pages)[k]?).map PageManifest.pageName
          = (pages[k]?).map (fun _ => nm ++ toString k) := by
  refine ⟨pageManifests_images io rel nm trim rot 0 pages, ?_, ?_⟩ <;>
    rw [pageManifests_getElem] <;>
    cases pages[k]? <;> simp

/-- The file an effect touches. -/
def opTarget : FsOp → OutName
  | .remove f => f
  | .write f _ => f

/-- A list of effects none of which touches `f` leaves `f`'s disk entry
unchanged. -/
theorem applyOps_untouched (f : OutName) :
    ∀ (ops : List FsOp) (d : OutName → Option FileContent),
    (∀ op ∈ ops, opTarget op ≠ f) → applyOps d ops f = d f := by
  intro ops
  induction ops with
  | nil => intro d _; rfl
  | cons op rest ih =>
    intro d hall
    have hop : opTarget op ≠ f := hall op (List.mem_cons_self op rest)
    have hstep : applyOp d op f = d f := by
      cases op with
      | remove x =>
        simp only [opTarget] at hop
        simp only [applyOp]
        rw [if_neg (fun h => hop h.symm)]
      | write x c =>
        simp only [opTarget] at hop
        simp only [applyOp]
        rw [if_neg (fun h => hop h.symm)]
    calc applyOps d (op :: rest) f
        = applyOps (applyOp d op) rest f := rfl
      _ = applyOp d op f := ih _ (fun o ho => hall o (List.mem_cons_of_mem op ho))
      _ = d f := hstep

/-- Every effect of `pageWrites i pages` targets a page of index
`i + k` with `k < pages.length`. -/
theorem pageWrites_target :
    ∀ (i : Nat) (pages : List (List Bitmap)) (op : FsOp),
    op ∈ pageWrites i pages → ∃ k, k < pages.length ∧ opTarget op = OutName.page (i + k) := by
  intro i pages
  induction pages generalizing i with
  | nil => intro op h; simp [pageWrites] at h
  | cons p ps ih =>
    intro op h
    simp only [pageWrites, List.mem_cons] at h
    rcases h with rfl | h
    · exact ⟨0, by simp, rfl⟩
    · obtain ⟨k, hk, ht⟩ := ih (i + 1) op h
      refine ⟨k + 1, Nat.succ_lt_succ hk, ?_⟩
      rw [ht]
      congr 1
      omega

/-- C9: the pre-run cleanup removes only the page files of index
`0 ≤ i < 16`, and a completed run writes exactly the pages
`0 ≤ i < packers.size()`; hence any page file with index `j ≥ 16` and
`j ≥ packers.size()` — for instance one left by an earlier run that
produced more than 16 pages — survives the whole run with its old content
unchanged. -/
theorem C9_stale_pages (d : OutName → Option FileContent) (io : ImagesOf) (rel nm : String)
    (xml bin json trim rot : Bool) (pages : List (List Bitmap)) (hsh : Nat) (j : Nat)
    (h16 : 16 ≤ j) (hk : pages.length ≤ j) :
    applyOps d (removeEffects ++ writeEffects io rel nm xml bin json trim rot pages hsh)
      (OutName.page j) = d (OutName.page j) := by
  apply applyOps_untouched
  intro op hop
  rw [List.mem_append] at hop
  rcases hop with h | h
  · simp only [removeEffects, List.mem_append, List.mem_cons, List.not_mem_nil, or_false,
      List.mem_map, List.mem_range] at h
    rcases h with (rfl | rfl | rfl | rfl) | ⟨i, hi, rfl⟩
    · intro hcon; cases hcon
    · intro hcon; cases hcon
    · intro hcon; cases hcon
    · intro hcon; cases hcon
    · simp only [opTarget]
      intro hcon
      cases hcon
      omega
  · simp only [writeEffects, List.mem_append] at h
    rcases h with ((((hpg | hbin) | hxml) | hjson) | hhash)
    · obtain ⟨k, hk2, ht⟩ := pageWrites_target 0 pages op hpg
      rw [ht]
      intro hcon
      cases hcon
      omega
    · by_cases hb : bin = true
      · rw [if_pos hb, List.mem_singleton] at hbin
        subst hbin
        intro hcon; cases hcon
      · rw [if_neg hb] at hbin
        exact absurd hbin (List.not_mem_nil op)
    · by_cases hb : xml = true
      · rw [if_pos hb, List.mem_singleton] at hxml
        subst hxml
        intro hcon; cases hcon
      · rw [if_neg hb] at hxml
        exact absurd hxml (List.not_mem_nil op)
    · by_cases hb : json = true
      · rw [if_pos hb, List.mem_singleton] at hjson
        subst hjson
        intro hcon; cases hcon
      · rw [if_neg hb] at hjson
        exact absurd hjson (List.not_mem_nil op)
    · simp only [List.mem_cons, List.not_mem_nil, or_false] at hhash
      subst hhash
      intro hcon; cases hcon

/-- A concrete one-entry disk for the C9 witness: an old page 16 left by a
previous, longer run. -/
def diskC9 : OutName → Option FileContent :=
  fun f => if f = .page 16 then some (.hashText 7) else none

/-- Witness for C9: a run that produces no page leaves page 16 alone. -/
theorem C9_stale_pages_witness :
    applyOps diskC9
        (removeEffects ++ writeEffects (fun _ _ _ => []) "r" "n" true true true false false [] 0)
        (OutName.page 16)
      = diskC9 (OutName.page 16) :=
  C9_stale_pages diskC9 (fun _ _ _ => []) "r" "n" true true true false false [] 0 16
    (by omega) (by simp)

/-- A concrete environment for C10: one directory input, `Pack` places
everything. -/
def envC10 : Env :=
  ⟨fun l => l.length, fun _ r _ _ => ⟨r, 1, 1⟩, fun _ _ _ _ _ bs => (bs, []),
   fun _ _ _ => [], fun t => if t = "a" then .dir [⟨"a/x.png", true, [1]⟩] else .missing,
   none⟩

/-- A concrete environment whose `Pack` succeeds exactly when the rotate
flag it is handed is set — making the (unreset) `optRotate` global
observable in the exit code. -/
def envRot : Env :=
  ⟨fun l => l.length, fun _ r _ _ => ⟨r, 1, 1⟩,
   fun _ _ _ _ rot bs => if rot then (bs, []) else ([], bs),
   fun _ _ _ => [], fun t => if t = "a" then .dir [⟨"a/x.png", true, [1]⟩] else .missing,
   none⟩

/-- C10: `crunch_main` is not a function of its arguments alone.
(1) The option-reset block restores every option global except `optRotate`,
and clears neither `bitmaps` nor `packers`.
(2) Concretely, running twice with identical arguments from the process
start state leaves 1 packer after the first call and 2 after the second —
the second run's effects (which write one PNG per accumulated packer)
differ from the first's.
(3) Concretely, the `optRotate` value left by a previous call flips a later
identically-invoked run between success and failure. -/
theorem C10_global_state :
    (∀ g : Globals, initOptions g =
        ⟨4096, 1, false, false, false, false, false, false, false, false,
          g.optRotate, g.bitmaps, g.packers⟩)
      ∧ ((crunchMain envC10 2 zeroG ["crunch", "out", "a", "-f"]).g.packers.length = 1
          ∧ (crunchMain envC10 2 (crunchMain envC10 2 zeroG ["crunch", "out", "a", "-f"]).g
              ["crunch", "out", "a", "-f"]).g.packers.length = 2
          ∧ (crunchMain envC10 2 zeroG ["crunch", "out", "a", "-f"]).effects
              ≠ (crunchMain envC10 2 (crunchMain envC10 2 zeroG ["crunch", "out", "a", "-f"]).g
                  ["crunch", "out", "a", "-f"]).effects)
      ∧ ((crunchMain envRot 2 { zeroG with optRotate := true } ["crunch", "out", "a", "-f"]).exit = 0
          ∧ (crunchMain envRot 2 zeroG ["crunch", "out", "a", "-f"]).exit = 1) :=
  ⟨fun _ => rfl, by decide, by decide⟩

end Crunch
